import Mathlib

/-!
Verification of the mask-resampling, prompt-feed, PNG-export and
boundary-tracing logic of the Onnx_Segmentor single-file React component
(src/src/App.tsx).  Every definition below is a shallow embedding of the
corresponding TypeScript code.  Machine floats are modelled by ℚ: sign
tests (`v > 0.0`) and small-integer arithmetic are exact, and the one
inexact computation — the nearest-neighbor index
`Math.floor((x / imgW) * MW)` — is modelled both in exact arithmetic
(`srcMap`, the idealization the spec's formula suggests) and with faithful
IEEE-754 binary64 rounding (`fl`, `srcMapJS`), which diverge at realizable
sizes.  Flat RGBA typed arrays are lists (an out-of-range typed-array read
yields `undefined`, and `undefined > 0` is `false`, modelled by
`List.getD` with default 0 together with the explicit index-range guard of
the real buffer).
-/

/-! ## Mask resampling (the nearest-neighbor loop in `run`, App.tsx 238-250) -/

/-- The exact-arithmetic value of `Math.floor((x / target) * src)`: the
natural-number division `x * src / target`.  The code evaluates this
expression in IEEE-754 doubles, which can fall one below the exact value
(see `srcMapJS`, settled under claim C3); `srcMap` is the idealized
mapping, whose bounds also bound the double-computed index. -/
def srcMap (x target src : Nat) : Nat :=
  x * src / target

/-- Fueled binary logarithm, structurally recursive so that kernel
evaluation works; `natLog2 n = ⌊log₂ n⌋` for `n ≥ 1`, since `n` halvings
always suffice. -/
def log2f : Nat → Nat → Nat
  | 0, _ => 0
  | fuel + 1, n => if n < 2 then 0 else log2f fuel (n / 2) + 1

/-- `⌊log₂ n⌋` for `n ≥ 1` (0 at 0). -/
def natLog2 (n : Nat) : Nat := log2f n n

/-- Round the nonnegative rational `n / d` (`d ≠ 0`) to the nearest
integer, ties to even. -/
def roundHalfEven (n d : Nat) : Nat :=
  let t := n / d
  let r := n % d
  if 2 * r < d then t
  else if d < 2 * r then t + 1
  else if t % 2 = 0 then t else t + 1

/-- `⌊log₂ (a / b)⌋` for positive naturals `a`, `b`: the bit lengths give
the candidate `k0` with the true value in `{k0 - 1, k0}`, decided by
comparing `2 ^ k0` with `a / b`. -/
def qLog2 (a b : Nat) : Int :=
  let k0 : Int := (natLog2 a : Int) - (natLog2 b : Int)
  if 0 ≤ k0 then (if b * 2 ^ k0.toNat ≤ a then k0 else k0 - 1)
  else (if b ≤ a * 2 ^ (-k0).toNat then k0 else k0 - 1)

/-- Round the nonnegative rational `a / b` to the nearest IEEE-754
binary64 value, returned as a significand/exponent pair
`(m, e)` of value `m * 2 ^ e`: scale so the significand lies in
`[2^52, 2^53)`, round it to an integer with ties to even, and keep the
scale.  The exponent is unbounded, which agrees with binary64 whenever no
overflow or subnormal occurs — true of every value arising in the
resampling arithmetic.  (The representation is kept in ℕ × ℤ rather than
ℚ so that kernel evaluation of concrete instances works.) -/
def flRound (a b : Nat) : Nat × Int :=
  if a = 0 then (0, 0) else
  let e : Int := qLog2 a b - 52
  if 0 ≤ e then (roundHalfEven a (b * 2 ^ e.toNat), e)
  else (roundHalfEven (a * 2 ^ (-e).toNat) b, e)

/-- `Math.floor` of the nonnegative value `m * 2 ^ e`. -/
def floorScaled (m : Nat) (e : Int) : Nat :=
  if 0 ≤ e then m * 2 ^ e.toNat else m / 2 ^ (-e).toNat

/-- What the code computes for `Math.floor((x / target) * src)`
(App.tsx 240-241) in IEEE-754 double arithmetic: the integer operands are
exact as doubles (canvas and tensor dimensions are far below 2^53), the
division `x / target` rounds once (`flRound x target`), the
multiplication by `src` rounds once more (the exact product of the
rounded quotient `m * 2 ^ e` with `src` is `(m * src) * 2 ^ e`, fed to
`flRound` as a fraction), and `Math.floor` is exact.  This can fall one
below the exact `srcMap`; the smallest instance is `x = 1`,
`target = src = 49`, where the doubles give
`fl(fl(1/49) * 49) = 1 - 2 ^ (-53)`, whose floor is 0, while
`srcMap 1 49 49 = 1`.  (For `target = 0` the JS expression is `NaN` or
`Infinity`; the resampling loop never evaluates it there, since `x`
ranges over `[0, target)`.) -/
def srcMapJS (x target src : Nat) : Nat :=
  let p1 := flRound x target
  let p2 :=
    if 0 ≤ p1.2 then flRound (p1.1 * src * 2 ^ p1.2.toNat) 1
    else flRound (p1.1 * src) (2 ^ (-p1.2).toNat)
  floorScaled p2.1 p2.2

/-- The fixed decision boundary of the code: `v > 0.0` (App.tsx 243). -/
def maskThreshold : ℚ := 0

/-- Alpha byte written for destination pixel `(x, y)`:
`Math.max(0, Math.min(255, Math.round((v > 0.0 ? 1 : 0) * 110)))` where
`v = m.data[srcY * MW + srcX]`.  `Math.round` is the identity on the exact
integers 0 and 110 and `max 0` is the identity on ℕ. -/
def alphaAt (sW sH tw th : Nat) (raw : List ℚ) (x y : Nat) : Nat :=
  let sx := srcMap x tw sW
  let sy := srcMap y th sH
  let v := raw.getD (sy * sW + sx) 0
  min 255 ((if maskThreshold < v then 1 else 0) * 110)

/-- Row-major accumulation of the nested `for y { for x { ... } }` loop:
rows are produced in order `y = 0, 1, ...`, each row in order
`x = 0, 1, ...`. -/
def gridRows (f : Nat → Nat → α) (tw : Nat) : Nat → List α
  | 0 => []
  | th + 1 => gridRows f tw th ++ (List.range tw).map fun x => f x (th : Nat)

/-- The alpha channel of the `ImageData` built by the resampling loop in
`run` (one entry per destination pixel, row-major).  The loop never
validates dimensions or the raw element count. -/
def runMaskAlpha (sW sH tw th : Nat) (raw : List ℚ) : List Nat :=
  gridRows (fun x y => alphaAt sW sH tw th raw x y) tw th

/-- `alphaAt` with the double-faithful index computation `srcMapJS` in
place of the exact `srcMap`: exactly what the code's per-pixel body does. -/
def alphaAtJS (sW sH tw th : Nat) (raw : List ℚ) (x y : Nat) : Nat :=
  let sx := srcMapJS x tw sW
  let sy := srcMapJS y th sH
  let v := raw.getD (sy * sW + sx) 0
  min 255 ((if maskThreshold < v then 1 else 0) * 110)

/-- The resampling loop with the double-faithful index computation: the
alpha channel the code's `run` writes, one entry per destination pixel,
row-major. -/
def runMaskAlphaJS (sW sH tw th : Nat) (raw : List ℚ) : List Nat :=
  gridRows (fun x y => alphaAtJS sW sH tw th raw x y) tw th

/-- Resampler-failure vocabulary of the specification. -/
inductive RErr where
  | InvalidDimensions
  | MissingData
  deriving DecidableEq

/-- Stated from the specification's words, for comparison with the code:
fail with `InvalidDimensions` if any dimension is non-positive, with
`MissingData` if the raw grid's element count differs from `srcW * srcH`,
else return the resampled grid. -/
def resampleSpecC5 (sW sH tw th : Nat) (raw : List ℚ) : Except RErr (List Nat) :=
  if sW = 0 ∨ sH = 0 ∨ tw = 0 ∨ th = 0 then .error .InvalidDimensions
  else if raw.length ≠ sW * sH then .error .MissingData
  else .ok (runMaskAlpha sW sH tw th raw)

theorem gridRows_length (f : Nat → Nat → α) (tw : Nat) :
    ∀ th, (gridRows f tw th).length = th * tw := by
  intro th
  induction th with
  | zero => simp [gridRows]
  | succ n ih => simp [gridRows, ih, Nat.succ_mul]

theorem gridRows_getD (f : Nat → Nat → α) (tw : Nat) (d : α) :
    ∀ th y x, y < th → x < tw →
      (gridRows f tw th).getD (y * tw + x) d = f x y := by
  intro th
  induction th with
  | zero => intro y x hy; omega
  | succ n ih =>
    intro y x hy hx
    rcases Nat.lt_succ_iff_lt_or_eq.mp hy with h | h
    · have hlen : y * tw + x < (gridRows f tw n).length := by
        rw [gridRows_length]
        calc y * tw + x < y * tw + tw := by omega
        _ = (y + 1) * tw := by ring
        _ ≤ n * tw := Nat.mul_le_mul_right tw h
      rw [gridRows, List.getD_append _ _ _ _ hlen, ih y x h hx]
    · subst h
      have hlen : (gridRows f tw y).length ≤ y * tw + x := by
        rw [gridRows_length]; exact Nat.le_add_right _ _
      rw [gridRows, List.getD_append_right _ _ _ _ hlen, gridRows_length]
      have hx2 : y * tw + x - y * tw = x := by omega
      rw [hx2]
      have hx3 : x < ((List.range tw).map fun x => f x y).length := by
        simpa using hx
      rw [List.getD_eq_getElem _ _ hx3]
      simp

/-- A 49 × 1 raw grid whose first sample is positive and whose second is
negative; every other sample is 0. -/
def raw49 : List ℚ := 1 :: -1 :: List.replicate 47 0

/-- Claim C3 counterexample: resampling a 49 × 1 raw grid to 49 × 1 at
destination pixel `(1, 0)`.  The claim's formula gives
`srcX = floor(1 / 49 * 49) = 1`, but the code's double arithmetic gives
`Math.floor(fl(fl(1/49) * 49)) = Math.floor(1 - 2 ^ (-53)) = 0`, so the
code samples `raw[0] = 1` (occupied) where the claim asserts the occupancy
equals `raw[1] = -1 > 0` (unoccupied). -/
theorem resample_float_cex :
    srcMapJS 1 49 49 = 0 ∧ srcMap 1 49 49 = 1 ∧
    0 < (runMaskAlphaJS 49 1 49 1 raw49).getD (0 * 49 + 1) 0 ∧
    ¬ (maskThreshold < raw49.getD (srcMap 0 1 1 * 49 + srcMap 1 49 49) 0) := by
  decide

/-- Claim C3 amended: every destination pixel `(x, y)` of the resampling
loop is set from the single source sample (no blending) at the
double-computed coordinates `srcX = Math.floor(fl(fl(x / tw) * sW))`,
`srcY = Math.floor(fl(fl(y / th) * sH))` — which can fall one below the
claim's exact `floor(x / tw * sW)`, first at `x = 1`, `tw = sW = 49` —
its occupancy being exactly `raw[srcY * sW + srcX] > threshold` with the
code's threshold 0, and the produced grid has exactly `tw * th` entries. -/
theorem resample_nearest_float (sW sH tw th : Nat) (raw : List ℚ) (x y : Nat)
    (hx : x < tw) (hy : y < th) :
    (runMaskAlphaJS sW sH tw th raw).length = tw * th ∧
    (0 < (runMaskAlphaJS sW sH tw th raw).getD (y * tw + x) 0 ↔
      maskThreshold < raw.getD (srcMapJS y th sH * sW + srcMapJS x tw sW) 0) := by
  constructor
  · rw [runMaskAlphaJS, gridRows_length, Nat.mul_comm]
  · rw [runMaskAlphaJS, gridRows_getD _ _ _ _ _ _ hy hx]
    simp only [alphaAtJS]
    split
    · simp_all
    · simp_all

/-- Witness for `resample_nearest_float` on a concrete 2×2 → 4×4
resampling. -/
theorem resample_nearest_float_witness :
    (runMaskAlphaJS 2 2 4 4 [(4 : ℚ)/5, -(1 : ℚ)/5, (1 : ℚ)/10, (9 : ℚ)/10]).length = 4 * 4 ∧
    (0 < (runMaskAlphaJS 2 2 4 4 [(4 : ℚ)/5, -(1 : ℚ)/5, (1 : ℚ)/10, (9 : ℚ)/10]).getD (3 * 4 + 3) 0 ↔
      maskThreshold < ([(4 : ℚ)/5, -(1 : ℚ)/5, (1 : ℚ)/10, (9 : ℚ)/10]).getD (srcMapJS 3 4 2 * 2 + srcMapJS 3 4 2) 0) :=
  resample_nearest_float 2 2 4 4 _ 3 3 (by decide) (by decide)

/-- Claim C7: the mapped source coordinates of the resampling loop always
lie in the valid source index range, so the flat read
`raw[srcY * sW + srcX]` is in bounds for every destination pixel. -/
theorem srcMap_bounds (sW sH tw th x y : Nat) (hx : x < tw) (hy : y < th)
    (hW : 0 < sW) (hH : 0 < sH) :
    srcMap x tw sW < sW ∧ srcMap y th sH < sH ∧
    srcMap y th sH * sW + srcMap x tw sW < sW * sH := by
  have hx1 : srcMap x tw sW < sW := by
    rw [srcMap]
    have hmul : x * sW < sW * tw := by
      have h1 := (Nat.mul_lt_mul_right hW).mpr hx
      rwa [Nat.mul_comm tw sW] at h1
    exact Nat.div_lt_iff_lt_mul (by omega) |>.mpr hmul
  have hy1 : srcMap y th sH < sH := by
    rw [srcMap]
    have hmul : y * sH < sH * th := by
      have h1 := (Nat.mul_lt_mul_right hH).mpr hy
      rwa [Nat.mul_comm th sH] at h1
    exact Nat.div_lt_iff_lt_mul (by omega) |>.mpr hmul
  refine ⟨hx1, hy1, ?_⟩
  have hstep : (srcMap y th sH + 1) * sW ≤ sH * sW := Nat.mul_le_mul_right sW (by omega)
  have hstep2 : (srcMap y th sH + 1) * sW = srcMap y th sH * sW + sW := by ring
  have hcomm : sW * sH = sH * sW := Nat.mul_comm _ _
  omega

/-- Witness for `srcMap_bounds` at concrete sizes. -/
theorem srcMap_bounds_witness :
    srcMap 3 4 3 < 3 ∧ srcMap 3 4 2 < 2 ∧ srcMap 3 4 2 * 3 + srcMap 3 4 3 < 3 * 2 :=
  srcMap_bounds 3 2 4 4 3 3 (by decide) (by decide) (by decide) (by decide)

/-- Claim C5 counterexample: with `srcW = srcH = 0` (non-positive
dimensions) and an empty raw grid, the specification demands an
`InvalidDimensions` failure, but the code performs no validation at all
and returns a complete 1×1 result grid. -/
theorem resample_no_failure_cex :
    runMaskAlpha 0 0 1 1 [] = [0] ∧
    resampleSpecC5 0 0 1 1 [] = Except.error RErr.InvalidDimensions := by
  constructor
  · rfl
  · rfl

/-- Claim C5 amended: the resampling loop never fails — for every input,
non-positive dimensions and mismatched raw element counts included, it
completes and returns a full `tw * th`-entry grid (out-of-range source
reads are sampled as unoccupied). -/
theorem resample_total (sW sH tw th : Nat) (raw : List ℚ) :
    (runMaskAlpha sW sH tw th raw).length = tw * th := by
  rw [runMaskAlpha, gridRows_length, Nat.mul_comm]

/-! ## Binary mask PNG export (`exportPNG`, App.tsx 264-291)

`exportPNG` reads back the overlay canvas (whose contents `draw` paints:
the colorized mask AND the prompt-point markers, App.tsx 117-133) and
binarizes its alpha channel: each output pixel is `(255,255,255,255)` when
the overlay alpha is positive and `(255,255,255,0)` otherwise.  The input
list below holds the overlay's per-pixel alpha bytes. -/

def binPNG (overlayAlpha : List Nat) : List (Nat × Nat × Nat × Nat) :=
  overlayAlpha.map fun a => (255, 255, 255, if 0 < a then 255 else 0)

/-- Stated from the claim's words: the export the specification describes,
opaque white exactly at the pixels occupied in the OccupancyGrid. -/
def pngOfOccupancy (occ : List Bool) : List (Nat × Nat × Nat × Nat) :=
  occ.map fun o => (255, 255, 255, if o then 255 else 0)

/-- Claim C9, failing input evaluated: a 2-pixel image whose mask is empty
(occupancy `[false, false]`, mask alpha 0 everywhere) but where `draw` has
painted an opaque prompt-point marker over pixel 0, leaving overlay alpha
`[255, 0]`.  The export writes opaque white at the unoccupied pixel 0, so
the produced PNG differs from the exact encoding of the occupancy grid
that the claim requires. -/
theorem exportPNG_marker_divergence :
    binPNG [255, 0] = [(255, 255, 255, 255), (255, 255, 255, 0)] ∧
    binPNG [255, 0] ≠ pngOfOccupancy [false, false] := by
  constructor
  · rfl
  · decide

/-! ## Prompt feeds (`run`, App.tsx 193-203)

`P = Math.max(points.length, 1)`; for `i < P` the loop reads
`points[i] ?? {x: 0, y: 0, label: 0}` and writes `coords[i*2] = p.x`,
`coords[i*2+1] = p.y`, `labels[i] = p.label`. -/

structure PromptPoint where
  x : ℚ
  y : ℚ
  label : ℚ
  deriving DecidableEq

/-- `Math.max(points.length, 1)`. -/
def promptP (pts : List PromptPoint) : Nat :=
  max pts.length 1

/-- The sequence of points the loop actually reads: index `i` gives
`points[i]` when present and the `(0, 0)`-label-0 placeholder otherwise. -/
def promptPts (pts : List PromptPoint) : List PromptPoint :=
  (List.range (promptP pts)).map fun i => pts.getD i ⟨0, 0, 0⟩

/-- Interleaved `[x0, y0, x1, y1, ...]` layout of a point list, as written
into the flat `coords` buffer. -/
def coordPairs : List PromptPoint → List ℚ
  | [] => []
  | p :: ps => p.x :: p.y :: coordPairs ps

/-- The flat `point_coords` tensor data. -/
def promptCoords (pts : List PromptPoint) : List ℚ :=
  coordPairs (promptPts pts)

/-- The flat `point_labels` tensor data. -/
def promptLabels (pts : List PromptPoint) : List ℚ :=
  (promptPts pts).map PromptPoint.label

theorem range_map_getD (d : α) :
    ∀ l : List α, (List.range l.length).map (fun i => l.getD i d) = l := by
  intro l
  induction l with
  | nil => rfl
  | cons a t ih =>
    rw [List.length_cons, List.range_succ_eq_map, List.map_cons, List.map_map]
    refine congrArg (a :: ·) ?_
    calc (List.range t.length).map ((fun i => (a :: t).getD i d) ∘ Nat.succ)
        = (List.range t.length).map (fun i => t.getD i d) := by
          refine List.map_congr_left ?_
          intro i _
          simp [Function.comp]
    _ = t := ih

theorem promptPts_of_ne_nil (pts : List PromptPoint) (h : pts ≠ []) :
    promptPts pts = pts := by
  have hP : promptP pts = pts.length := by
    rw [promptP]
    have : 1 ≤ pts.length := by
      cases pts with
      | nil => exact absurd rfl h
      | cons a t => simp
    omega
  rw [promptPts, hP, range_map_getD]

theorem coordPairs_length : ∀ pts : List PromptPoint, (coordPairs pts).length = 2 * pts.length := by
  intro pts
  induction pts with
  | nil => rfl
  | cons p ps ih => simp [coordPairs, ih]; omega

/-- Claim C10: with zero prompt points the feeds hold exactly one
placeholder point at `(0, 0)` with background label 0; with a non-empty
point list the feeds hold exactly the user's points, in insertion order,
with their labels (`coords` interleaving x and y, hence `2 * |points|`
entries). -/
theorem prompt_feeds :
    (promptCoords [] = [0, 0] ∧ promptLabels [] = [0]) ∧
    ∀ pts : List PromptPoint, pts ≠ [] →
      promptCoords pts = coordPairs pts ∧
      promptLabels pts = pts.map PromptPoint.label ∧
      (promptCoords pts).length = 2 * pts.length := by
  refine ⟨⟨rfl, rfl⟩, ?_⟩
  intro pts h
  rw [promptCoords, promptLabels, promptPts_of_ne_nil pts h]
  exact ⟨rfl, rfl, coordPairs_length pts⟩

/-- Witness for `prompt_feeds` on a concrete one-point list. -/
theorem prompt_feeds_witness :
    promptCoords [⟨5, 7, 1⟩] = coordPairs [⟨5, 7, 1⟩] ∧
    promptLabels [⟨5, 7, 1⟩] = ([⟨5, 7, 1⟩] : List PromptPoint).map PromptPoint.label ∧
    (promptCoords [⟨5, 7, 1⟩]).length = 2 * ([⟨5, 7, 1⟩] : List PromptPoint).length :=
  prompt_feeds.2 [⟨5, 7, 1⟩] (List.cons_ne_nil _ _)

/-! ## Boundary tracing (`exportPolygon`, App.tsx 294-348)

`exportPolygon` reads the overlay's `ImageData` (width, height, RGBA
buffer) and probes occupancy through
`isOn(x, y) = id.data[(y * W + x) * 4 + 3] > 0`.  A JavaScript typed-array
read at an out-of-range index yields `undefined` and `undefined > 0` is
`false`; an in-range flat index is read even when `x` or `y` is outside
`[0, W) × [0, H)` (the flat arithmetic aliases neighboring rows).  A real
`ImageData` buffer has exactly `4 * W * H` bytes of which the tracer only
reads the alpha bytes, so `alpha` below holds the per-pixel alpha channel
(length `W * H`) and the guard `0 ≤ (y*W+x)*4+3 < 4*W*H` is equivalent to
`0 ≤ y*W+x < W*H`. -/

structure ImgData where
  width : Nat
  height : Nat
  alpha : List Nat
  deriving DecidableEq

/-- `isOn` of `exportPolygon` (App.tsx 300), on arbitrary integer
coordinates, with typed-array out-of-range semantics. -/
def isOn (img : ImgData) (x y : Int) : Bool :=
  let f : Int := y * img.width + x
  decide (0 ≤ f) && decide (f < ((img.width * img.height : Nat) : Int)) &&
    decide (0 < img.alpha.getD f.toNat 0)

/-- One iteration body of the walk (App.tsx 318-326), position and
direction update only: `right = (dir + 3) & 3`, `left = (dir + 1) & 3`;
if the probed `right` side is occupied, face it and step; else if the cell
ahead is occupied, step; else face `left` without stepping. -/
def traceStep (pix : Int → Int → Bool) (x y : Int) (dir : Nat) : Int × Int × Nat :=
  let r := (dir + 3) &&& 3
  let l := (dir + 1) &&& 3
  let rightIsOn :=
    if r = 0 then pix (x + 1) y else if r = 1 then pix x (y + 1)
    else if r = 2 then pix (x - 1) y else pix x (y - 1)
  let ahead :=
    if dir = 0 then pix (x + 1) y else if dir = 1 then pix x (y + 1)
    else if dir = 2 then pix (x - 1) y else pix x (y - 1)
  if rightIsOn then
    if r = 0 then (x + 1, y, r) else if r = 1 then (x, y + 1, r)
    else if r = 2 then (x - 1, y, r) else (x, y - 1, r)
  else if ahead then
    if dir = 0 then (x + 1, y, dir) else if dir = 1 then (x, y + 1, dir)
    else if dir = 2 then (x - 1, y, dir) else (x, y - 1, dir)
  else (x, y, l)

/-- The neighbor of `(x, y)` in direction `d` under the encoding
0 = RIGHT, 1 = DOWN, 2 = LEFT, 3 = UP. -/
def nbr (pix : Int → Int → Bool) (x y : Int) (d : Nat) : Bool :=
  if d = 0 then pix (x + 1) y else if d = 1 then pix x (y + 1)
  else if d = 2 then pix (x - 1) y else pix x (y - 1)

/-- One step of `(x, y)` in direction `d`. -/
def fwd (x y : Int) (d : Nat) : Int × Int :=
  if d = 0 then (x + 1, y) else if d = 1 then (x, y + 1)
  else if d = 2 then (x - 1, y) else (x, y - 1)

/-- Stated from claim C1's words: probe the right-hand side
`(dir + 1) % 4`; if occupied turn right (`dir + 1`) and step; else if the
cell ahead is occupied step without turning; else turn left (`dir + 3`)
without stepping. -/
def specStepC1 (pix : Int → Int → Bool) (x y : Int) (dir : Nat) : Int × Int × Nat :=
  let r := (dir + 1) % 4
  if nbr pix x y r then ((fwd x y r).1, (fwd x y r).2, r)
  else if nbr pix x y dir then ((fwd x y dir).1, (fwd x y dir).2, dir)
  else (x, y, (dir + 3) % 4)

/-- The rule the code actually implements, written with `% 4` and the
direction helpers: probe the side `(dir + 3) % 4`; if occupied turn to it
and step; else if the cell ahead is occupied step without turning; else
turn to `(dir + 1) % 4` without stepping. -/
def amendedStepC1 (pix : Int → Int → Bool) (x y : Int) (dir : Nat) : Int × Int × Nat :=
  let s := (dir + 3) % 4
  if nbr pix x y s then ((fwd x y s).1, (fwd x y s).2, s)
  else if nbr pix x y dir then ((fwd x y dir).1, (fwd x y dir).2, dir)
  else (x, y, (dir + 1) % 4)

/-- Result of the tracing loop: the accumulated polygon, the final
position, and whether the loop stopped through the seed-return `break`
(rather than by exhausting the `4 * W * H` iteration budget). -/
structure TraceResult where
  poly : List (Int × Int)
  x : Int
  y : Int
  broke : Bool
  deriving DecidableEq

/-- The `for (steps = 0; steps < W*H*4; steps++)` loop (App.tsx 314-328):
push the current position, update position/direction by `traceStep`, stop
when the new position equals the seed and more than 10 points are
accumulated.  (The `visited` array is written but never read, so it is
omitted.) -/
def traceLoop (pix : Int → Int → Bool) (sx sy : Int) :
    Nat → Int → Int → Nat → List (Int × Int) → TraceResult
  | 0, x, y, _, poly => ⟨poly, x, y, false⟩
  | fuel + 1, x, y, dir, poly =>
    let poly2 := poly ++ [(x, y)]
    let s := traceStep pix x y dir
    if s.1 = sx ∧ s.2.1 = sy ∧ 10 < poly2.length then ⟨poly2, s.1, s.2.1, true⟩
    else traceLoop pix sx sy fuel s.1 s.2.1 s.2.2 poly2

/-- Seed scan (App.tsx 304-309): first occupied pixel in row-major order
(rows top to bottom, each row left to right). -/
def findSeed (img : ImgData) : Option (Nat × Nat) :=
  (List.range img.height).findSome? fun (y : Nat) =>
    ((List.range img.width).find? fun (x : Nat) => isOn img x y).map
      fun (x : Nat) => ((x, y) : Nat × Nat)

/-- The full walk from a seed, with the code's iteration budget
`W * H * 4`, initial direction 0 = RIGHT and empty polygon. -/
def traceRun (img : ImgData) (sx sy : Nat) : TraceResult :=
  traceLoop (isOn img) sx sy (img.width * img.height * 4) sx sy 0 []

/-- `exportPolygon`: `none` models the early
`return alert("No mask to export")` (no file is written); `some` carries
the traced polygon that is serialized into the GeoJSON download. -/
def exportPolygon (img : ImgData) : Option TraceResult :=
  match findSeed img with
  | none => none
  | some (sx, sy) => some (traceRun img sx sy)

/-- The polygon of an optional trace result (empty when no trace ran). -/
def polyOf : Option TraceResult → List (Int × Int)
  | none => []
  | some r => r.poly

/-- A 3×3 grid whose only occupied pixel is `(1, 0)`. -/
def g3c1 : ImgData := ⟨3, 3, [0, 110, 0, 0, 0, 0, 0, 0, 0]⟩

/-- Claim C1 counterexample: at position `(1, 1)` facing RIGHT (`dir = 0`)
on `g3c1`, the claim's rule probes the right-hand side `(dir + 1) % 4 = DOWN`
(unoccupied), finds the cell ahead unoccupied too, and turns left in place;
the code instead probes the side `(dir + 3) & 3 = UP` (occupied), turns to
it and steps to `(1, 0)`.  The two step functions disagree. -/
theorem traceStep_ne_specStepC1 :
    traceStep (isOn g3c1) 1 1 0 ≠ specStepC1 (isOn g3c1) 1 1 0 := by decide

/-- Claim C1 amended: under the cyclic encoding RIGHT, DOWN, LEFT, UP, the
side the walk probes and turns into when occupied is `(dir + 3) mod 4`, and
the turn taken when neither that side nor the cell ahead is occupied is
`(dir + 1) mod 4`; otherwise the step rule is as claimed (step after
turning into the occupied probed side, step forward when ahead is occupied,
turn in place when neither is). -/
theorem fwd_triple (x y : Int) (d e : Nat) :
    ((fwd x y d).1, (fwd x y d).2, e) =
      if d = 0 then (x + 1, y, e) else if d = 1 then (x, y + 1, e)
      else if d = 2 then (x - 1, y, e) else (x, y - 1, e) := by
  rw [fwd]
  split_ifs <;> rfl

theorem traceStep_amended (pix : Int → Int → Bool) (x y : Int) (dir : Nat) :
    traceStep pix x y dir = amendedStepC1 pix x y dir := by
  have h3 : (dir + 3) &&& 3 = (dir + 3) % 4 := by
    simpa using Nat.and_pow_two_sub_one_eq_mod (dir + 3) 2
  have h1 : (dir + 1) &&& 3 = (dir + 1) % 4 := by
    simpa using Nat.and_pow_two_sub_one_eq_mod (dir + 1) 2
  simp only [traceStep, amendedStepC1, nbr, fwd_triple, h3, h1]

theorem traceLoop_poly_length (pix : Int → Int → Bool) (sx sy : Int) :
    ∀ fuel (x y : Int) (dir : Nat) (poly : List (Int × Int)),
      (traceLoop pix sx sy fuel x y dir poly).poly.length ≤ poly.length + fuel := by
  intro fuel
  induction fuel with
  | zero => intro x y dir poly; simp [traceLoop]
  | succ n ih =>
    intro x y dir poly
    simp only [traceLoop]
    split
    · simp
    · refine le_trans (ih _ _ _ _) ?_
      simp
      omega

theorem traceLoop_break_iff (pix : Int → Int → Bool) (sx sy : Int) :
    ∀ fuel (x y : Int) (dir : Nat) (poly : List (Int × Int)),
      ¬ (x = sx ∧ y = sy ∧ 10 < poly.length) →
      ((traceLoop pix sx sy fuel x y dir poly).broke = true ↔
        ((traceLoop pix sx sy fuel x y dir poly).x = sx ∧
         (traceLoop pix sx sy fuel x y dir poly).y = sy ∧
         11 ≤ (traceLoop pix sx sy fuel x y dir poly).poly.length)) := by
  intro fuel
  induction fuel with
  | zero =>
    intro x y dir poly h
    simp only [traceLoop]
    constructor
    · intro hb; cases hb
    · intro hc
      refine absurd ⟨hc.1, hc.2.1, ?_⟩ h
      have h2 : 11 ≤ poly.length := hc.2.2
      omega
  | succ n ih =>
    intro x y dir poly h
    simp only [traceLoop]
    split
    next hc =>
      constructor
      · intro _
        refine ⟨hc.1, hc.2.1, ?_⟩
        have h2 : 10 < (poly ++ [(x, y)]).length := hc.2.2
        show 11 ≤ (poly ++ [(x, y)]).length
        omega
      · intro _; rfl
    next hc =>
      exact ih _ _ _ _ hc

theorem traceLoop_mem (pix : Int → Int → Bool) (sx sy : Int) :
    ∀ fuel (x y : Int) (dir : Nat) (poly : List (Int × Int)) (p : Int × Int),
      p ∈ poly → p ∈ (traceLoop pix sx sy fuel x y dir poly).poly := by
  intro fuel
  induction fuel with
  | zero => intro x y dir poly p hp; simpa [traceLoop] using hp
  | succ n ih =>
    intro x y dir poly p hp
    simp only [traceLoop]
    split
    · exact List.mem_append_left _ hp
    · exact ih _ _ _ _ _ (List.mem_append_left _ hp)

theorem traceLoop_start_mem (pix : Int → Int → Bool) (sx sy : Int)
    (fuel : Nat) (x y : Int) (dir : Nat) (poly : List (Int × Int))
    (h : 0 < fuel) :
    (x, y) ∈ (traceLoop pix sx sy fuel x y dir poly).poly := by
  cases fuel with
  | zero => omega
  | succ n =>
    simp only [traceLoop]
    split
    · exact List.mem_append_right _ (by simp)
    · exact traceLoop_mem pix sx sy _ _ _ _ _ _ (List.mem_append_right _ (by simp))

theorem findSeed_spec (img : ImgData) (sx sy : Nat)
    (h : findSeed img = some (sx, sy)) :
    sx < img.width ∧ sy < img.height ∧ isOn img sx sy = true := by
  rw [findSeed] at h
  obtain ⟨y, hymem, hy⟩ := List.exists_of_findSome?_eq_some h
  rw [Option.map_eq_some'] at hy
  obtain ⟨x, hfind, hxy⟩ := hy
  have hx2 : x = sx := congrArg Prod.fst hxy
  have hy2 : y = sy := congrArg Prod.snd hxy
  subst hx2
  subst hy2
  have hp0 := List.find?_some hfind
  have hp : isOn img x y = true := hp0
  exact ⟨List.mem_range.mp (List.mem_of_find?_eq_some hfind),
    List.mem_range.mp hymem, hp⟩

/-- Claim C2: for every grid with an occupied pixel (seed found), the walk
from the seed pushes exactly one point per iteration, so it executes at
most `4 * width * height` iterations; it stops through the `break` exactly
when the position after the step equals the seed and at least 11 points
are accumulated; and on a grid with exactly one occupied pixel the walk
terminates within the budget with that pixel in the polygon. -/
theorem trace_budget_break (img : ImgData) (sx sy : Nat)
    (h : findSeed img = some (sx, sy)) :
    (traceRun img sx sy).poly.length ≤ 4 * (img.width * img.height) ∧
    ((traceRun img sx sy).broke = true ↔
      ((traceRun img sx sy).x = sx ∧ (traceRun img sx sy).y = sy ∧
        11 ≤ (traceRun img sx sy).poly.length)) ∧
    (∀ px py : Nat, px < img.width → py < img.height →
      (∀ x : Nat, x < img.width → ∀ y : Nat, y < img.height →
        (isOn img x y = true ↔ (x = px ∧ y = py))) →
      ((px : Int), (py : Int)) ∈ (traceRun img sx sy).poly) := by
  obtain ⟨hsx, hsy, hon⟩ := findSeed_spec img sx sy h
  refine ⟨?_, ?_, ?_⟩
  · have hlen := traceLoop_poly_length (isOn img) sx sy
      (img.width * img.height * 4) sx sy 0 []
    rw [traceRun]
    simp only [List.length_nil] at hlen
    omega
  · rw [traceRun]
    apply traceLoop_break_iff
    simp
  · intro px py hpx hpy huniq
    obtain ⟨rfl, rfl⟩ : sx = px ∧ sy = py := (huniq sx hsx sy hsy).mp hon
    have hfuel : 0 < img.width * img.height * 4 :=
      Nat.mul_pos (Nat.mul_pos (by omega) (by omega)) (by norm_num)
    rw [traceRun]
    exact traceLoop_start_mem (isOn img) sx sy _ sx sy 0 [] hfuel

/-- Witness for `trace_budget_break`: the 2×2 grid whose only occupied
pixel is `(1, 0)`. -/
theorem trace_budget_break_witness :
    ((1 : Int), (0 : Int)) ∈ (traceRun ⟨2, 2, [0, 110, 0, 0]⟩ 1 0).poly ∧
    (traceRun ⟨2, 2, [0, 110, 0, 0]⟩ 1 0).poly.length ≤ 4 * (2 * 2) := by
  have h := trace_budget_break ⟨2, 2, [0, 110, 0, 0]⟩ 1 0 (by decide)
  exact ⟨h.2.2 1 0 (by decide) (by decide) (by decide), h.1⟩

/-- Claim C6: on a grid with no occupied pixel the seed scan finds
nothing, and `exportPolygon` takes the early
`return alert("No mask to export")` path — modelled by `none` — writing no
output file. -/
theorem trace_empty_none (img : ImgData)
    (h : ∀ x : Nat, x < img.width → ∀ y : Nat, y < img.height →
      isOn img x y = false) :
    exportPolygon img = none := by
  have hseed : findSeed img = none := by
    rw [findSeed, List.findSome?_eq_none_iff]
    intro y hy
    rw [Option.map_eq_none']
    rw [List.find?_eq_none]
    intro x hx
    simp [h x (List.mem_range.mp hx) y (List.mem_range.mp hy)]
  rw [exportPolygon, hseed]

/-- Witness for `trace_empty_none` on a concrete all-unoccupied 2×2 grid. -/
theorem trace_empty_none_witness :
    exportPolygon ⟨2, 2, [0, 0, 0, 0]⟩ = none :=
  trace_empty_none ⟨2, 2, [0, 0, 0, 0]⟩ (by decide)

/-- The 2×2 grid with pixels `(1, 0)` and `(0, 1)` occupied (overlay alpha
bytes `[0, 110, 110, 0]`). -/
def gridWrap : ImgData := ⟨2, 2, [0, 110, 110, 0]⟩

/-- Claim C4, failing input evaluated: on `gridWrap` the walk probes
`isOn(2, 0)`, whose flat index `(0 * 2 + 2) * 4 + 3` is in range and
aliases pixel `(0, 1)` of the next row, so the probe succeeds and the walk
emits the point `(2, 0)` — outside the grid bounds (`2 < width = 2` is
false).  Occupancy indexing is flat-array arithmetic, not a bounds-checked
2-D access. -/
theorem trace_oob_point :
    ((2 : Int), (0 : Int)) ∈ polyOf (exportPolygon gridWrap) ∧
    ¬ ((2 : Int) < (gridWrap.width : Int)) := by decide

/-- The 4×4 grid whose center 2×2 block (pixels `(1,1), (2,1), (1,2),
(2,2)`) is occupied. -/
def gridC8 : ImgData :=
  ⟨4, 4, [0, 0, 0, 0, 0, 110, 110, 0, 0, 110, 110, 0, 0, 0, 0, 0]⟩

/-- Claim C8 counterexample: on the 4×4 center-2×2 grid the trace emits a
15-point polygon, not one of at most 8 points. -/
theorem trace_center_block_cex :
    (polyOf (exportPolygon gridC8)).length = 15 ∧
    ¬ ((polyOf (exportPolygon gridC8)).length ≤ 8) := by decide

/-- Claim C8 amended: on the 4×4 center-2×2 grid the trace stops through
the seed-return `break` with final position back at the seed `(1, 1)`,
emitting a 15-point polygon that visits exactly the four occupied pixels
(each twice per lap, the seed once more); its first point `(1, 1)` and
last point `(1, 2)` differ, so the emitted ring is closed positionally but
not in the data. -/
theorem trace_center_block_result :
    exportPolygon gridC8 = some ⟨[(1, 1), (2, 1), (2, 1), (2, 2), (2, 2),
      (1, 2), (1, 2), (1, 1), (1, 1), (2, 1), (2, 1), (2, 2), (2, 2),
      (1, 2), (1, 2)], 1, 1, true⟩ := by decide
